import Mathlib

/-!
Verification development for the greptimedb repository fragment:
shallow embeddings of
  * `common_function`'s `ToUnixtimeFuntion` (src/common/function/src/scalars/timestamp/to_unixtime.rs),
  * the frontend `Instance` SQL handling (src/frontend/src/instance.rs),
  * the storage region read/write engine, which is exercised by
    src/storage/src/region/tests/read_write.rs but whose implementation is
    not part of the fragment; it is modelled from the specification.
-/

namespace Greptime

/- ================================================================
   Part 1: common_function scalars: ToUnixtimeFuntion
   (src/common/function/src/scalars/timestamp/to_unixtime.rs)
   ================================================================ -/

/-- Modelled from the spec: `ConcreteDataType` of the external `datatypes`
crate (not in src/); only the constructors used by `to_unixtime.rs` are
distinguished, every other logical type is collapsed into `other`. -/
inductive ConcreteDataType where
  | timestampMillisecond
  | int64
  | other
deriving DecidableEq, Repr

/-- Embeds `ConcreteDataType::timestamp_millisecond_datatype()` of the datatypes crate. -/
def ConcreteDataType.timestamp_millisecond_datatype : ConcreteDataType :=
  ConcreteDataType.timestampMillisecond

/-- Embeds `ConcreteDataType::int64_datatype()` of the datatypes crate. -/
def ConcreteDataType.int64_datatype : ConcreteDataType :=
  ConcreteDataType.int64

/-- Modelled from the spec: error type of `common_query::error` (not in src/).
The precise variants are irrelevant here: `return_type` always succeeds and
`eval` never returns. -/
inductive QueryError where
  | unsupportedInputDataType
  | typeCast
  | arrowCompute
deriving DecidableEq, Repr

/-- Modelled from the spec: `FunctionContext` of the function crate; carries
no data relevant to this fragment. -/
structure FunctionContext where
deriving DecidableEq, Repr

/-- Modelled from the spec: a `VectorRef` is a reference to a column vector;
for this development a vector of nullable int64 cells suffices (the value is
irrelevant: `ToUnixtimeFuntion::eval` never produces one). -/
def VectorRef : Type := List (Option Int)
deriving instance DecidableEq for VectorRef

/-- Modelled from the spec: `Volatility` of `common_query::prelude`. -/
inductive Volatility where
  | immutable
  | stable
  | volatile
deriving DecidableEq, Repr

/-- Modelled from the spec: `TypeSignature` of `common_query` restricted to
the `Uniform` shape used by `to_unixtime.rs`. -/
inductive TypeSignature where
  | uniform (arity : Nat) (valid_types : List ConcreteDataType)
deriving DecidableEq, Repr

/-- Modelled from the spec: `Signature` of `common_query::prelude`. -/
structure Signature where
  type_signature : TypeSignature
  volatility : Volatility
deriving DecidableEq, Repr

/-- Embeds `Signature::uniform` of `common_query`. -/
def Signature.uniform (arity : Nat) (valid_types : List ConcreteDataType)
    (volatility : Volatility) : Signature :=
  { type_signature := TypeSignature.uniform arity valid_types, volatility := volatility }

namespace ToUnixtimeFuntion

/-- Embeds `ToUnixtimeFuntion::name` (to_unixtime.rs line 28): always `"to_unixtime"`. -/
def name : String := "to_unixtime"

/-- Embeds `ToUnixtimeFuntion::return_type` (to_unixtime.rs line 32): ignores the
input types and always returns the timestamp-millisecond type. -/
def return_type (_input_types : List ConcreteDataType) : Except QueryError ConcreteDataType :=
  Except.ok ConcreteDataType.timestamp_millisecond_datatype

/-- Embeds `ToUnixtimeFuntion::signature` (to_unixtime.rs line 36). -/
def signature : Signature :=
  Signature.uniform 1 [ConcreteDataType.int64_datatype] Volatility.immutable

/-- Embeds `ToUnixtimeFuntion::eval` (to_unixtime.rs line 44): the body is
`todo!()`, which always panics; panicking is embedded as `none` (no result,
neither an `ok` vector nor a recoverable error, is ever produced). -/
def eval (_func_ctx : FunctionContext) (_columns : List VectorRef) :
    Option (Except QueryError VectorRef) :=
  none

end ToUnixtimeFuntion

/- ================================================================
   Part 2: frontend Instance (src/frontend/src/instance.rs)
   ================================================================ -/

/-- Modelled from the spec: `sql::statements::create_table::TIME_INDEX`,
the reserved constraint name marking the time-index column (the sql crate
is not in src/). -/
def TIME_INDEX : String := "__time_index"

/-- Modelled from the spec: `sql::ast::TableConstraint`, restricted to the
`Unique` shape inspected by instance.rs; all other constraint forms are
collapsed into `otherConstraint`. An `Ident`'s `value` is its string. -/
inductive TableConstraint where
  | unique (name : Option String) (columns : List String) (is_primary : Bool)
  | otherConstraint
deriving DecidableEq, Repr

/-- Modelled from the spec: `sql::ast::ColumnDef`; its contents are consumed
only by the external `column_def_to_schema`, so it is left abstract. -/
structure ColumnDef where
  name : String
deriving DecidableEq, Repr

/-- Modelled from the spec: `sql::statements::create_table::CreateTable`
restricted to the fields read by `create_to_expr`. -/
structure CreateTable where
  name : String
  columns : List ColumnDef
  constraints : List TableConstraint
  if_not_exists : Bool
  engine : String
deriving DecidableEq, Repr

/-- Embeds `api::v1::ColumnDef` (`GrpcColumnDef` in instance.rs). -/
structure GrpcColumnDef where
  name : String
  data_type : Int
  is_nullable : Bool
deriving DecidableEq, Repr

/-- Embeds `api::v1::CreateExpr`, restricted to the fields filled by
`create_to_expr`. -/
structure CreateExpr where
  catalog_name : String
  schema_name : String
  table_name : String
  column_defs : List GrpcColumnDef
  time_index : String
  primary_keys : List String
  create_if_not_exists : Bool
  table_options : List (String × String)
deriving DecidableEq, Repr

/-- The error type of `frontend::error` restricted to the variants reachable
from `create_to_expr`: `InvalidSql { err_msg }`, `ParseSql`, and
`ColumnDataType`. -/
inductive FrontendError where
  | invalidSql (err_msg : String)
  | parseSql
  | columnDataType
deriving DecidableEq, Repr

/-- The flattened list of column names designated as time index by the
constraints: columns of every `Unique` constraint that is not primary and
whose name is `TIME_INDEX` (instance.rs lines 167-184). -/
def timeIndexColumns (constraints : List TableConstraint) : List String :=
  (constraints.map fun constraint =>
    match constraint with
    | TableConstraint.unique (some name) columns false =>
        if name = TIME_INDEX then columns else []
    | _ => []).flatten

/-- Embeds `find_time_index` (instance.rs lines 166-192): collect the time-index
columns; `ensure!` that there is exactly one, else fail with `InvalidSql`. -/
def find_time_index (constraints : List TableConstraint) : Except FrontendError String :=
  let time_index := timeIndexColumns constraints
  if time_index.length = 1 then
    Except.ok (time_index.headD "")
  else
    Except.error (FrontendError.invalidSql "must have one and only one TimeIndex columns")

/-- Embeds `find_primary_keys` (instance.rs lines 150-164): the flattened columns
of every primary `Unique` constraint; never fails. -/
def find_primary_keys (constraints : List TableConstraint) :
    Except FrontendError (List String) :=
  Except.ok
    ((constraints.map fun constraint =>
      match constraint with
      | TableConstraint.unique _ columns true => columns
      | _ => []).flatten)

/-- Embeds `create_to_expr` (instance.rs lines 131-148). The two external helpers
`table_idents_to_full_name` (sql crate) and `columns_to_expr`'s column
conversion (datatypes/api crates) are not in src/, so their results are
passed in as parameters; the field computations happen in the source's
evaluation order (full name, column defs, time index, primary keys). -/
def create_to_expr
    (full_name : Except FrontendError (String × String × String))
    (column_defs : Except FrontendError (List GrpcColumnDef))
    (create : CreateTable) : Except FrontendError CreateExpr :=
  match full_name with
  | Except.error e => Except.error e
  | Except.ok (catalog_name, schema_name, table_name) =>
    match column_defs with
    | Except.error e => Except.error e
    | Except.ok defs =>
      match find_time_index create.constraints with
      | Except.error e => Except.error e
      | Except.ok time_index =>
        match find_primary_keys create.constraints with
        | Except.error e => Except.error e
        | Except.ok primary_keys =>
          Except.ok
            { catalog_name := catalog_name
              schema_name := schema_name
              table_name := table_name
              column_defs := defs
              time_index := time_index
              primary_keys := primary_keys
              create_if_not_exists := create.if_not_exists
              table_options := [("engine", create.engine)] }

/-- Modelled from the spec: `sql::statements::statement::Statement`; the
variants instance.rs dispatches on (`Query`, `Insert`, `Create`) are kept,
every other statement kind is collapsed into `otherStatement` (carrying a
tag so distinct unsupported statements stay distinct). An `Insert` exposes
`table_name()`. -/
inductive Statement where
  | query (body : String)
  | insert (table_name : String)
  | create (table : CreateTable)
  | otherStatement (tag : String)
deriving DecidableEq, Repr

/-- The externally observable outcome of `SqlQueryHandler::do_query`
(instance.rs lines 68-114) up to the datanode boundary: either an error is
returned without contacting the datanode, or a request is dispatched
(select to `db.select`, insert to `db.insert`, create to `admin.create`). -/
inductive QueryAction where
  | parseFailure
  | notSupported (feat : String)
  | executeError (e : FrontendError)
  | dispatchSelect (sql : String)
  | dispatchInsert (table_name : String) (sql : String)
  | dispatchCreate (expr : CreateExpr)
deriving DecidableEq, Repr

/-- Whether a `do_query` outcome dispatched anything to the datanode. -/
def QueryAction.dispatched : QueryAction → Bool
  | QueryAction.dispatchSelect _ => true
  | QueryAction.dispatchInsert _ _ => true
  | QueryAction.dispatchCreate _ => true
  | _ => false

/-- Embeds `SqlQueryHandler::do_query` (instance.rs lines 68-114). The external
parser's outcome is passed in as `parsed` (`ParserContext::create_with_dialect`
is not in src/); a parse error surfaces as `parseFailure`. If the parsed
statement count differs from one, the handler answers `NotSupported` with
the fixed feature message; otherwise it dispatches on the single statement,
answering `NotSupported` with the query text for statements other than
Query/Insert/Create. (The source checks `stmt.len() != 1` and then takes
`stmt.remove(0)`; the match below on a one-element list is the same test.) -/
def do_query (query : String)
    (parsed : Except String (List Statement))
    (full_name : Except FrontendError (String × String × String))
    (column_defs : Except FrontendError (List GrpcColumnDef)) : QueryAction :=
  match parsed with
  | Except.error _ => QueryAction.parseFailure
  | Except.ok [stmt] =>
    match stmt with
    | Statement.query _ => QueryAction.dispatchSelect query
    | Statement.insert table_name => QueryAction.dispatchInsert table_name query
    | Statement.create table =>
      match create_to_expr full_name column_defs table with
      | Except.ok expr => QueryAction.dispatchCreate expr
      | Except.error e => QueryAction.executeError e
    | Statement.otherStatement _ => QueryAction.notSupported query
  | Except.ok _ =>
    QueryAction.notSupported "Only one SQL is allowed to be executed at one time."

/- ================================================================
   Part 3: storage region read/write engine.
   The implementation (storage crate's RegionImpl, WriteBatch, memtable,
   snapshot) is not part of the fragment; only its test file
   src/storage/src/region/tests/read_write.rs is. Everything below is
   modelled from the specification (spec.md sections 3-5), at per-batch
   sequence granularity as exhibited by test_sequence_increase.
   ================================================================ -/

/-- Modelled from the spec: the role of a column in `RegionMetadata`
(spec section 3: role is key, value, time-index or version). -/
inductive ColumnRole where
  | key
  | value
  | timeIndex
  | version
deriving DecidableEq, Repr

/-- Whether the role makes the column part of the row key (time-index,
extra key columns, version). -/
def ColumnRole.isKey : ColumnRole → Bool
  | ColumnRole.key => true
  | ColumnRole.timeIndex => true
  | ColumnRole.version => true
  | ColumnRole.value => false

/-- Modelled from the spec: one column of a region's schema:
`(name, nullable, role)` (spec section 3, RegionMetadata; the logical type
is not needed by the claims, every cell is a nullable int64). -/
structure ColumnSchema where
  name : String
  nullable : Bool
  role : ColumnRole
deriving DecidableEq, Repr

/-- Modelled from the spec: `RegionMetadata` — the ordered list of column
descriptors, immutable per region generation (spec section 3). -/
structure RegionMetadata where
  columns : List ColumnSchema
deriving DecidableEq, Repr

/-- Embeds `RegionMeta::schema()`: the declared column layout. -/
def RegionMetadata.schema (md : RegionMetadata) : List ColumnSchema :=
  md.columns

/-- The name of the (unique, spec section 3) time-index column. -/
def RegionMetadata.timeIndexName (md : RegionMetadata) : String :=
  ((md.columns.find? fun c => c.role = ColumnRole.timeIndex).map
    ColumnSchema.name).getD ""

/-- The value columns, in declared order. -/
def RegionMetadata.valueColumns (md : RegionMetadata) : List ColumnSchema :=
  md.columns.filter fun c => c.role = ColumnRole.value

/-- A cell: an int64 value or null. -/
def Value : Type := Option Int
deriving instance DecidableEq, Repr for Value

/-- Modelled from the spec: `PutData` — a mapping from column name to the
column's value sequence (spec section 3, WriteBatch: column-major data). -/
def PutData : Type := List (String × List Value)
deriving instance DecidableEq, Repr for PutData

/-- The values supplied for a named column of a put, if present. -/
def PutData.column (d : PutData) (name : String) : Option (List Value) :=
  (d.find? fun c => c.1 = name).map Prod.snd

/-- The row count of a put: the length of its first column's values
(every other column must match it — validation check (b)). -/
def PutData.rowCount (d : PutData) : Nat :=
  ((d.head?.map fun c => c.2.length)).getD 0

/-- Modelled from the spec: one logical mutation of a write batch:
put-with-values or delete-by-key (spec section 3, WriteBatch). -/
inductive Mutation where
  | put (data : PutData)
  | delete (keys : List Int)
deriving DecidableEq, Repr

/-- Modelled from the spec: `WriteBatch` — one or more logical mutations,
immutable once submitted (spec section 3). -/
structure WriteBatch where
  mutations : List Mutation
deriving DecidableEq, Repr

/-- Validation of one put against the metadata (spec section 4.1):
(a) every referenced column exists in the schema, (b) every column's value
count matches the put's row count, (c) the key columns are provided,
(d) non-nullable columns receive no nulls. -/
def validatePut (md : RegionMetadata) (d : PutData) : Bool :=
  (d.all fun c => md.columns.any fun col => col.name = c.1) &&
  (d.all fun c => c.2.length = d.rowCount) &&
  ((md.columns.filter fun col => col.role.isKey).all fun col =>
    d.any fun c => c.1 = col.name) &&
  (d.all fun c =>
    (md.columns.all fun col => col.name ≠ c.1 || col.nullable || c.2.all Option.isSome))

/-- Validation of a whole batch: every mutation validates (spec section
4.2 step 1); a delete carries only key values and always validates here. -/
def validateBatch (md : RegionMetadata) (b : WriteBatch) : Bool :=
  b.mutations.all fun m =>
    match m with
    | Mutation.put d => validatePut md d
    | Mutation.delete _ => true

/-- Modelled from the spec: a memtable entry
`(RowKey, SequenceNumber, values, tombstone?)` (spec section 3, Memtable).
The key is the time-index value; `values` lists the value columns in
declared order. -/
structure Entry where
  key : Int
  seq : Nat
  tombstone : Bool
  values : List Value
deriving DecidableEq, Repr

/-- The entries a validated put contributes at sequence `seq`: one entry
per row, keyed by the time-index column, carrying each value column's cell
(null when the batch does not supply that column). -/
def putEntries (md : RegionMetadata) (d : PutData) (seq : Nat) : List Entry :=
  (List.range d.rowCount).map fun i =>
    { key := ((((d.column md.timeIndexName).getD []).getD i none).getD 0)
      seq := seq
      tombstone := false
      values := md.valueColumns.map fun col => ((d.column col.name).getD []).getD i none }

/-- The entries a delete contributes at sequence `seq`: one tombstone per
key (spec section 3: tombstone entries suppress older versions at read
time). -/
def deleteEntries (keys : List Int) (seq : Nat) : List Entry :=
  keys.map fun k => { key := k, seq := seq, tombstone := true, values := [] }

/-- All entries of a batch at sequence `seq` (per-batch granularity: every
row of the batch shares the assignment point, spec section 3). -/
def batchEntries (md : RegionMetadata) (b : WriteBatch) (seq : Nat) : List Entry :=
  (b.mutations.map fun m =>
    match m with
    | Mutation.put d => putEntries md d seq
    | Mutation.delete keys => deleteEntries keys seq).flatten

/-- The number of rows a batch affects. -/
def batchRows (b : WriteBatch) : Nat :=
  (b.mutations.map fun m =>
    match m with
    | Mutation.put d => d.rowCount
    | Mutation.delete keys => keys.length).sum

/-- Modelled from the spec: `WriteContext` (store-api); carries nothing the
write path inspects. -/
structure WriteContext where
deriving DecidableEq, Repr

/-- Modelled from the spec: `ReadContext` (store-api); carries nothing the
read path inspects. -/
structure ReadContext where
deriving DecidableEq, Repr

/-- Modelled from the spec: `WriteResponse` — success carries the number of
rows affected (spec section 4.2 step 5). -/
structure WriteResponse where
  rows_affected : Nat
deriving DecidableEq, Repr

/-- The write-path error taxonomy relevant to the claims (spec section 7):
schema-validation rejection and WAL durability failure. -/
inductive WriteError where
  | schemaMismatch
  | walWriteError
deriving DecidableEq, Repr

/-- Modelled from the spec: the `Region` state — name, metadata (current
generation), `committed_sequence`, and the memtable of committed entries
(spec section 3, Region; the flushed-chunk set is not needed by the
claims and is subsumed in the single entry list). -/
structure Region where
  name : String
  metadata : RegionMetadata
  committed_sequence : Nat
  memtable : List Entry
deriving DecidableEq, Repr

/-- Embeds `RegionImpl::new`: a fresh region with `committed_sequence = 0` and an
empty memtable. -/
def Region.new (name : String) (metadata : RegionMetadata) : Region :=
  { name := name, metadata := metadata, committed_sequence := 0, memtable := [] }

/-- Modelled from the spec: `Region::write` (spec section 4.2): (1) validate
the batch, rejecting the whole batch with `SchemaMismatch` on mismatch;
(2) assign the next sequence number `committed_sequence + 1` (per-batch
granularity); (3) persist to the WAL — the collaborator's outcome is the
`walOk` parameter; on failure the write fails with `WalWriteError` and
`committed_sequence` is not advanced; (4) apply the rows to the memtable;
(5) advance `committed_sequence` and return the rows affected. -/
def Region.write (r : Region) (_ctx : WriteContext) (b : WriteBatch) (walOk : Bool) :
    Except WriteError (Region × WriteResponse) :=
  if validateBatch r.metadata b then
    let seq := r.committed_sequence + 1
    if walOk then
      Except.ok
        ({ r with
            memtable := r.memtable ++ batchEntries r.metadata b seq
            committed_sequence := seq },
         { rows_affected := batchRows b })
    else
      Except.error WriteError.walWriteError
  else
    Except.error WriteError.schemaMismatch

/-- Embeds `Region::committed_sequence()` (read-only introspection). -/
def Region.committedSequence (r : Region) : Nat :=
  r.committed_sequence

/-- Embeds `Region::in_memory_metadata()`. -/
def Region.in_memory_metadata (r : Region) : RegionMetadata :=
  r.metadata

/-- Modelled from the spec: a `Snapshot` captures
`(committed_sequence, memtable reference, metadata)` atomically (spec
section 3); the sequence bound, not a copy of the data, is what isolates
it — the scan filters shared entries at merge time (spec section 4.5). -/
structure Snapshot where
  sequence : Nat
  entries : List Entry
  metadata : RegionMetadata
deriving DecidableEq, Repr

/-- Embeds `Region::snapshot` (spec section 4.5): atomic capture of the current
committed sequence and memtable. -/
def Region.snapshot (r : Region) (_ctx : ReadContext) : Snapshot :=
  { sequence := r.committed_sequence, entries := r.memtable, metadata := r.metadata }

/-- Merge order on entries: by key ascending, ties by sequence ascending
(so that after sorting, the last entry of an equal-key run is the one with
the highest sequence — last-writer-wins, spec invariant I4). -/
def entryLe (a b : Entry) : Prop :=
  a.key < b.key ∨ (a.key = b.key ∧ a.seq ≤ b.seq)

instance : DecidableRel entryLe := fun a b =>
  inferInstanceAs (Decidable (a.key < b.key ∨ (a.key = b.key ∧ a.seq ≤ b.seq)))

instance : IsTotal Entry entryLe where
  total a b := by
    rcases lt_trichotomy a.key b.key with h | h | h
    · exact Or.inl (Or.inl h)
    · rcases Nat.le_total a.seq b.seq with hs | hs
      · exact Or.inl (Or.inr ⟨h, hs⟩)
      · exact Or.inr (Or.inr ⟨h.symm, hs⟩)
    · exact Or.inr (Or.inl h)

instance : IsTrans Entry entryLe where
  trans a b c hab hbc := by
    rcases hab with h1 | ⟨h1, s1⟩
    · rcases hbc with h2 | ⟨h2, _⟩
      · exact Or.inl (h1.trans h2)
      · exact Or.inl (h2 ▸ h1)
    · rcases hbc with h2 | ⟨h2, s2⟩
      · exact Or.inl (h1 ▸ h2)
      · exact Or.inr ⟨h1.trans h2, s1.trans s2⟩

/-- Collapse each run of equal-key entries in a key-sorted list to its last
element: the winning (highest-sequence) version per key (spec section 4.5:
at each key the candidate with the highest sequence at or below the bound
is emitted). -/
def collapseNewest : List Entry → List Entry
  | [] => []
  | [e] => [e]
  | a :: b :: l =>
    if a.key = b.key then collapseNewest (b :: l) else a :: collapseNewest (b :: l)

/-- One output row of a scan: the key (time-index value) and the value
columns. -/
def Row : Type := Int × List Value
deriving instance DecidableEq, Repr for Row

/-- The visible entries of a shared entry list under a sequence bound:
exactly those with sequence at or below the bound (spec invariant I3,
filtered at merge time, spec section 4.5). -/
def visibleEntries (entries : List Entry) (bound : Nat) : List Entry :=
  entries.filter fun e => e.seq ≤ bound

/-- The rows a scan produces from a shared entry list under a sequence
bound (spec section 4.5): keep the entries at or below the bound, merge in
key order, emit per key the highest-sequence candidate, and suppress
tombstoned entries from the output. -/
def scanRows (entries : List Entry) (bound : Nat) : List Row :=
  ((collapseNewest (List.insertionSort entryLe (visibleEntries entries bound))).filter
    fun e => !e.tombstone).map fun e => (e.key, e.values)

/-- Modelled from the spec: a `Chunk` of rows produced by a reader. -/
structure Chunk where
  rows : List Row
deriving DecidableEq, Repr

/-- Modelled from the spec: the `ChunkReader` — a lazy, finite,
forward-only producer of chunks; it reports the schema of its rows (spec
section 4.5 and the scan response consumed by Tester::full_scan). -/
structure ChunkReader where
  schema : List ColumnSchema
  chunks : List Chunk
deriving DecidableEq, Repr

/-- Embeds `ChunkReader::next_chunk`: `none` when exhausted, else the next chunk
and the advanced reader (forward-only). -/
def ChunkReader.next_chunk (r : ChunkReader) : Option Chunk × ChunkReader :=
  match r.chunks with
  | [] => (none, r)
  | c :: rest => (some c, { schema := r.schema, chunks := rest })

/-- Modelled from the spec: `ScanRequest` (default: full range, no
projection). -/
structure ScanRequest where
deriving DecidableEq, Repr

/-- Embeds `Snapshot::scan` (spec section 4.5): the reader over the snapshot's
visible rows, reporting the region's declared column layout; the rows are
delivered as a single chunk when nonempty. -/
def Snapshot.scan (s : Snapshot) (_ctx : ReadContext) (_req : ScanRequest) : ChunkReader :=
  let rows := scanRows s.entries s.sequence
  { schema := s.metadata.schema
    chunks := if rows.isEmpty then [] else [{ rows := rows }] }

/-- Drive a reader for `fuel` calls of `next_chunk`, collecting the emitted
chunks and returning the final reader state. -/
def runReader : Nat → ChunkReader → List Chunk × ChunkReader
  | 0, r => ([], r)
  | Nat.succ n, r =>
    match r.next_chunk with
    | (none, r2) => ([], r2)
    | (some c, r2) =>
      let rest := runReader n r2
      (c :: rest.1, rest.2)

/-- One region operation of a caller's program: a write of a batch, with
the WAL collaborator's outcome (spec section 4.2; snapshots and scans are
read-only and do not change the state). -/
structure Op where
  ctx : WriteContext
  batch : WriteBatch
  walOk : Bool
deriving DecidableEq, Repr

/-- Apply one operation: a failed write (validation or WAL) leaves the
region unchanged (spec section 7: rejected at validation, no state
mutated; WAL failure, no memtable mutation, sequence not committed). -/
def stepOp (r : Region) (op : Op) : Region :=
  match r.write op.ctx op.batch op.walOk with
  | Except.ok (r2, _) => r2
  | Except.error _ => r

/-- Apply a sequence of operations in program order. -/
def applyOps (r : Region) (ops : List Op) : Region :=
  ops.foldl stepOp r

/-- Whether r owns any put whose data references a column absent from the
schema (first failure mode of `SchemaMismatch`, spec section 7). -/
def putHasUnknownColumn (md : RegionMetadata) (d : PutData) : Bool :=
  d.any fun c => md.columns.all fun col => col.name ≠ c.1

/-- Whether a put's columns disagree on the row count (wrong arity, second
failure mode of `SchemaMismatch`, spec section 7). -/
def putHasWrongArity (d : PutData) : Bool :=
  d.any fun c => c.2.length ≠ d.rowCount

/-- Whether a put supplies a null to a non-nullable column (third failure
mode of `SchemaMismatch`, spec section 7). -/
def putHasNullViolation (md : RegionMetadata) (d : PutData) : Bool :=
  d.any fun c => md.columns.any fun col =>
    col.name = c.1 && !col.nullable && !(c.2.all Option.isSome)

/-- Whether a batch references an unknown column. -/
def batchHasUnknownColumn (md : RegionMetadata) (b : WriteBatch) : Bool :=
  b.mutations.any fun m =>
    match m with
    | Mutation.put d => putHasUnknownColumn md d
    | Mutation.delete _ => false

/-- Whether a batch has a wrong-arity put. -/
def batchHasWrongArity (b : WriteBatch) : Bool :=
  b.mutations.any fun m =>
    match m with
    | Mutation.put d => putHasWrongArity d
    | Mutation.delete _ => false

/-- Whether a batch puts a null into a non-nullable column. -/
def batchHasNullViolation (md : RegionMetadata) (b : WriteBatch) : Bool :=
  b.mutations.any fun m =>
    match m with
    | Mutation.put d => putHasNullViolation md d
    | Mutation.delete _ => false

/- ================================================================
   Part 4: fixtures of src/storage/src/region/tests/read_write.rs
   ================================================================ -/

/-- Modelled from the spec: `test_util::TIMESTAMP_NAME`, the name of the
test schema's time-index column (the storage crate's test_util is not in
src/). -/
def TIMESTAMP_NAME : String := "timestamp"

/-- The metadata built by `new_region_for_rw false` (read_write.rs lines
18-27): the time-index column plus the nullable int64 value column `v1`;
the version column is disabled. -/
def testMetadata : RegionMetadata :=
  { columns :=
      [ { name := TIMESTAMP_NAME, nullable := false, role := ColumnRole.timeIndex },
        { name := "v1", nullable := true, role := ColumnRole.value } ] }

/-- Embeds `new_region_for_rw false` (read_write.rs line 18): the fresh test
region named `region-rw-0`. -/
def new_region_for_rw : Region :=
  Region.new "region-rw-0" testMetadata

/-- Embeds `new_put_data` (read_write.rs lines 44-56): timestamps as the key
column, `v1` as the value column, column-major. -/
def new_put_data (data : List (Int × Option Int)) : PutData :=
  [ (TIMESTAMP_NAME, data.map fun kv => some kv.1),
    ("v1", data.map fun kv => kv.2) ]

/-- The single-put write batch `Tester::put` submits (read_write.rs lines
101-108). -/
def putBatch (data : List (Int × Option Int)) : WriteBatch :=
  { mutations := [Mutation.put (new_put_data data)] }

/-- Embeds `Tester::put` (read_write.rs lines 101-108): build the batch and write
it (the WAL collaborator succeeds in the test environment). -/
def Tester.put (r : Region) (data : List (Int × Option Int)) :
    Except WriteError (Region × WriteResponse) :=
  r.write ⟨⟩ (putBatch data) true

/-- Embeds `Tester::full_scan` (read_write.rs lines 110-128): capture a snapshot,
scan it, and drain the reader chunk by chunk into a flat row list. -/
def Tester.full_scan (r : Region) : List Row :=
  let reader := (r.snapshot ⟨⟩).scan ⟨⟩ ⟨⟩
  ((runReader reader.chunks.length reader).1.map Chunk.rows).flatten

/-- The loop of `test_sequence_increase` (read_write.rs lines 152-163):
`n` sequential single-row puts `(i, Some 1234)` on the fresh test region. -/
def seqTestPuts (n : Nat) : Except WriteError Region :=
  (List.range n).foldlM
    (fun r (i : Nat) => (Tester.put r [(Int.ofNat i, some 1234)]).map Prod.fst)
    new_region_for_rw

deriving instance DecidableEq for Except

/-- Spec invariant I1/I3 precondition: every committed memtable entry's
sequence number is at or below `committed_sequence` (holds for every
region reachable from `Region.new` by the write path). -/
def WellFormed (r : Region) : Prop :=
  ∀ e ∈ r.memtable, e.seq ≤ r.committed_sequence

/- ================================================================
   Part 5: theorems
   ================================================================ -/

/-- Shape of a successful write: the sequence advances by one (per-batch
granularity), the metadata is untouched, and the batch's entries are
appended to the memtable at the new sequence. -/
theorem write_ok_shape {r : Region} {ctx : WriteContext} {b : WriteBatch}
    {walOk : Bool} {r2 : Region} {resp : WriteResponse}
    (h : r.write ctx b walOk = Except.ok (r2, resp)) :
    r2.committed_sequence = r.committed_sequence + 1 ∧
    r2.metadata = r.metadata ∧
    r2.memtable = r.memtable ++ batchEntries r.metadata b (r.committed_sequence + 1) := by
  by_cases hv : validateBatch r.metadata b = true
  · by_cases hw : walOk = true
    · rw [Region.write, if_pos hv, if_pos hw] at h
      rcases h with ⟨⟩
      exact ⟨rfl, rfl, rfl⟩
    · rw [Region.write, if_pos hv, if_neg hw] at h
      cases h
  · rw [Region.write, if_neg hv] at h
    cases h

/-- Every entry contributed by a batch at sequence `s` carries sequence
`s`. -/
theorem seq_of_mem_batchEntries {md : RegionMetadata} {b : WriteBatch} {s : Nat}
    {e : Entry} (h : e ∈ batchEntries md b s) : e.seq = s := by
  simp only [batchEntries, List.mem_flatten, List.mem_map] at h
  obtain ⟨l, ⟨m, _, rfl⟩, hel⟩ := h
  cases m with
  | put d =>
    simp only [putEntries, List.mem_map] at hel
    obtain ⟨i, _, rfl⟩ := hel
    rfl
  | delete keys =>
    simp only [deleteEntries, List.mem_map] at hel
    obtain ⟨k, _, rfl⟩ := hel
    rfl

/-- A single operation never touches the metadata. -/
theorem stepOp_metadata (r : Region) (op : Op) :
    (stepOp r op).metadata = r.metadata := by
  unfold stepOp
  cases h : r.write op.ctx op.batch op.walOk with
  | ok pair =>
    obtain ⟨r2, resp⟩ := pair
    exact (write_ok_shape h).2.1
  | error e => rfl

/-- A single operation never decreases `committed_sequence`. -/
theorem stepOp_cs_le (r : Region) (op : Op) :
    r.committed_sequence ≤ (stepOp r op).committed_sequence := by
  unfold stepOp
  cases h : r.write op.ctx op.batch op.walOk with
  | ok pair =>
    obtain ⟨r2, resp⟩ := pair
    exact le_of_lt ((write_ok_shape h).1 ▸ Nat.lt_succ_self _)
  | error e => exact le_refl _

/-- A single operation only appends entries, all of them with sequence
numbers strictly above the region's previous `committed_sequence`. -/
theorem stepOp_memtable (r : Region) (op : Op) :
    ∃ extra : List Entry,
      (stepOp r op).memtable = r.memtable ++ extra ∧
      ∀ e ∈ extra, r.committed_sequence < e.seq := by
  unfold stepOp
  cases h : r.write op.ctx op.batch op.walOk with
  | ok pair =>
    obtain ⟨r2, resp⟩ := pair
    obtain ⟨hcs, hmd, hmem⟩ := write_ok_shape h
    exact ⟨batchEntries r.metadata op.batch (r.committed_sequence + 1), hmem,
      fun e he => seq_of_mem_batchEntries he ▸ Nat.lt_succ_self _⟩
  | error e => exact ⟨[], (List.append_nil _).symm, fun e he => absurd he (List.not_mem_nil e)⟩

/-- Committed sequence is monotone across any sequence of operations,
failures included. -/
theorem applyOps_cs_le (r : Region) (ops : List Op) :
    r.committed_sequence ≤ (applyOps r ops).committed_sequence := by
  induction ops generalizing r with
  | nil => exact le_refl _
  | cons op rest ih => exact le_trans (stepOp_cs_le r op) (ih (stepOp r op))

/-- A sequence of operations only appends entries, all of them with
sequence numbers strictly above the starting `committed_sequence`. -/
theorem applyOps_memtable (r : Region) (ops : List Op) :
    ∃ extra : List Entry,
      (applyOps r ops).memtable = r.memtable ++ extra ∧
      ∀ e ∈ extra, r.committed_sequence < e.seq := by
  induction ops generalizing r with
  | nil => exact ⟨[], (List.append_nil _).symm, fun e he => absurd he (List.not_mem_nil e)⟩
  | cons op rest ih =>
    obtain ⟨extra1, hm1, hs1⟩ := stepOp_memtable r op
    obtain ⟨extra2, hm2, hs2⟩ := ih (stepOp r op)
    refine ⟨extra1 ++ extra2, ?_, ?_⟩
    · rw [applyOps, List.foldl_cons, ← applyOps, hm2, hm1, List.append_assoc]
    · intro e he
      rcases List.mem_append.mp he with h1 | h2
      · exact hs1 e h1
      · exact lt_of_le_of_lt (stepOp_cs_le r op) (hs2 e h2)

/-- Entries above the visibility bound are dropped by the filter. -/
theorem visibleEntries_append_high {m extra : List Entry} {bound : Nat}
    (h : ∀ e ∈ extra, bound < e.seq) :
    visibleEntries (m ++ extra) bound = visibleEntries m bound := by
  unfold visibleEntries
  rw [List.filter_append]
  have : extra.filter (fun e => decide (e.seq ≤ bound)) = [] := by
    rw [List.filter_eq_nil_iff]
    intro e he
    simp only [decide_eq_true_eq]
    exact Nat.not_le.mpr (h e he)
  rw [this, List.append_nil]

/-- C3: sequential writes get strictly increasing sequence numbers (the
sequence assigned to a successful write is its region's
`committed_sequence` right after the write), and `committed_sequence`
never decreases across any sequence of operations. -/
theorem C3_sequence_strictly_increasing :
    (∀ (r : Region) (ctx1 : WriteContext) (b1 : WriteBatch) (w1 : Bool)
       (r1 : Region) (resp1 : WriteResponse) (ops : List Op)
       (ctx2 : WriteContext) (b2 : WriteBatch) (w2 : Bool)
       (r2 : Region) (resp2 : WriteResponse),
       r.write ctx1 b1 w1 = Except.ok (r1, resp1) →
       (applyOps r1 ops).write ctx2 b2 w2 = Except.ok (r2, resp2) →
       r1.committedSequence < r2.committedSequence) ∧
    (∀ (r : Region) (ops : List Op),
       r.committedSequence ≤ (applyOps r ops).committedSequence) := by
  constructor
  · intro r ctx1 b1 w1 r1 resp1 ops ctx2 b2 w2 r2 resp2 h1 h2
    have hcs2 := (write_ok_shape h2).1
    calc r1.committedSequence
        ≤ (applyOps r1 ops).committed_sequence := applyOps_cs_le r1 ops
      _ < r2.committed_sequence := hcs2 ▸ Nat.lt_succ_self _
  · intro r ops
    exact applyOps_cs_le r ops

/-- Witness for C3: two sequential single-row puts on the fresh test
region get sequence numbers 1 and 2. -/
theorem C3_sequence_strictly_increasing_witness :
    ({ name := "region-rw-0", metadata := testMetadata, committed_sequence := 1,
       memtable := [{ key := 0, seq := 1, tombstone := false, values := [some 1234] }] }
      : Region).committedSequence <
    ({ name := "region-rw-0", metadata := testMetadata, committed_sequence := 2,
       memtable :=
         [ { key := 0, seq := 1, tombstone := false, values := [some 1234] },
           { key := 1, seq := 2, tombstone := false, values := [some 5678] } ] }
      : Region).committedSequence :=
  C3_sequence_strictly_increasing.1 new_region_for_rw ⟨⟩ (putBatch [(0, some 1234)]) true
    _ { rows_affected := 1 } [] ⟨⟩ (putBatch [(1, some 5678)]) true
    _ { rows_affected := 1 } (by decide) (by decide)

/-- C4: snapshot isolation. (i) the rows a snapshot sees are computed from
the shared entries filtered at its captured sequence bound, so applying
any later operations to the region leaves the snapshot's scan output
unchanged, even though the scan reads the evolving shared structure;
(ii) the snapshot's visible state is exactly the entries with sequence at
or below the `committed_sequence` captured at snapshot time; (iii) for a
well-formed region every entry committed before the capture instant is
visible. -/
theorem C4_snapshot_isolation :
    (∀ (r : Region) (rctx : ReadContext) (ops : List Op),
        scanRows (applyOps r ops).memtable (r.snapshot rctx).sequence =
          scanRows r.memtable (r.snapshot rctx).sequence) ∧
    (∀ (r : Region) (rctx : ReadContext) (e : Entry),
        e ∈ visibleEntries (r.snapshot rctx).entries (r.snapshot rctx).sequence ↔
          e ∈ r.memtable ∧ e.seq ≤ r.committed_sequence) ∧
    (∀ (r : Region) (rctx : ReadContext), WellFormed r →
        visibleEntries (r.snapshot rctx).entries (r.snapshot rctx).sequence = r.memtable) := by
  refine ⟨?_, ?_, ?_⟩
  · intro r rctx ops
    obtain ⟨extra, hmem, hhigh⟩ := applyOps_memtable r ops
    have hseq : (r.snapshot rctx).sequence = r.committed_sequence := rfl
    unfold scanRows
    rw [hseq, hmem, visibleEntries_append_high hhigh]
  · intro r rctx e
    simp [visibleEntries, List.mem_filter, Region.snapshot]
  · intro r rctx hwf
    unfold visibleEntries Region.snapshot
    rw [List.filter_eq_self]
    intro e he
    simp only [decide_eq_true_eq]
    exact hwf e he

/-- Witness for C4 (applying its well-formedness hypothesis at a concrete
one-entry region). -/
theorem C4_snapshot_isolation_witness :
    visibleEntries
      (({ name := "region-rw-0", metadata := testMetadata, committed_sequence := 1,
          memtable := [{ key := 0, seq := 1, tombstone := false, values := [some 1234] }] }
        : Region).snapshot ⟨⟩).entries
      (({ name := "region-rw-0", metadata := testMetadata, committed_sequence := 1,
          memtable := [{ key := 0, seq := 1, tombstone := false, values := [some 1234] }] }
        : Region).snapshot ⟨⟩).sequence =
    ({ name := "region-rw-0", metadata := testMetadata, committed_sequence := 1,
       memtable := [{ key := 0, seq := 1, tombstone := false, values := [some 1234] }] }
      : Region).memtable :=
  C4_snapshot_isolation.2.2
    { name := "region-rw-0", metadata := testMetadata, committed_sequence := 1,
      memtable := [{ key := 0, seq := 1, tombstone := false, values := [some 1234] }] }
    ⟨⟩ (by intro e he; fin_cases he; decide)

/-- Driving a reader for exactly as many steps as it has chunks emits all
of them and leaves the reader exhausted. -/
theorem runReader_drain (cs : List Chunk) (sch : List ColumnSchema) :
    runReader cs.length { schema := sch, chunks := cs } =
      (cs, { schema := sch, chunks := [] }) := by
  induction cs with
  | nil => rfl
  | cons c rest ih =>
    simp only [List.length_cons, runReader, ChunkReader.next_chunk, ih]

/-- A batch flagged with any of the three schema-mismatch conditions
(unknown column, wrong arity, null in a non-nullable column) fails
validation. -/
theorem validateBatch_false_of_flag {md : RegionMetadata} {b : WriteBatch}
    (h : (batchHasUnknownColumn md b || batchHasWrongArity b ||
          batchHasNullViolation md b) = true) :
    validateBatch md b = false := by
  cases hv : validateBatch md b with
  | false => rfl
  | true =>
    exfalso
    simp only [validateBatch, List.all_eq_true] at hv
    simp only [Bool.or_eq_true] at h
    rcases h with (h1 | h2) | h3
    · simp only [batchHasUnknownColumn, List.any_eq_true] at h1
      obtain ⟨m, hm, hflag⟩ := h1
      cases m with
      | delete keys => exact Bool.false_ne_true hflag
      | put d =>
        have hput : validatePut md d = true := hv (Mutation.put d) hm
        simp only [validatePut, Bool.and_eq_true] at hput
        obtain ⟨⟨⟨hA, _⟩, _⟩, _⟩ := hput
        have hflag2 : putHasUnknownColumn md d = true := hflag
        simp only [putHasUnknownColumn, List.any_eq_true, List.all_eq_true,
          decide_eq_true_eq] at hflag2
        obtain ⟨c, hc, hall⟩ := hflag2
        simp only [List.all_eq_true] at hA
        have hex := hA c hc
        simp only [List.any_eq_true, decide_eq_true_eq] at hex
        obtain ⟨col, hcolmem, heq⟩ := hex
        exact hall col hcolmem heq
    · simp only [batchHasWrongArity, List.any_eq_true] at h2
      obtain ⟨m, hm, hflag⟩ := h2
      cases m with
      | delete keys => exact Bool.false_ne_true hflag
      | put d =>
        have hput : validatePut md d = true := hv (Mutation.put d) hm
        simp only [validatePut, Bool.and_eq_true] at hput
        obtain ⟨⟨⟨_, hB⟩, _⟩, _⟩ := hput
        have hflag2 : putHasWrongArity d = true := hflag
        simp only [putHasWrongArity, List.any_eq_true, decide_eq_true_eq] at hflag2
        obtain ⟨c, hc, hne⟩ := hflag2
        simp only [List.all_eq_true, decide_eq_true_eq] at hB
        exact hne (hB c hc)
    · simp only [batchHasNullViolation, List.any_eq_true] at h3
      obtain ⟨m, hm, hflag⟩ := h3
      cases m with
      | delete keys => exact Bool.false_ne_true hflag
      | put d =>
        have hput : validatePut md d = true := hv (Mutation.put d) hm
        simp only [validatePut, Bool.and_eq_true] at hput
        obtain ⟨⟨⟨_, _⟩, _⟩, hD⟩ := hput
        have hflag2 : putHasNullViolation md d = true := hflag
        simp only [putHasNullViolation, List.any_eq_true, Bool.and_eq_true,
          Bool.not_eq_true', decide_eq_true_eq] at hflag2
        obtain ⟨c, hc, col, hcolmem, ⟨hname, hnotnull⟩, hnull⟩ := hflag2
        simp only [List.all_eq_true] at hD
        have hok := hD c hc
        simp only [List.all_eq_true, Bool.or_eq_true, decide_eq_true_eq] at hok
        rcases hok col hcolmem with (hne | hnul) | hsome
        · exact hne hname
        · exact Bool.false_ne_true (hnotnull ▸ hnul)
        · exact Bool.false_ne_true (hnull ▸ List.all_eq_true.mpr hsome)

/-- C5: a write batch that fails schema validation (unknown column, wrong
arity, or a null in a non-nullable column) is rejected in its entirety
with `SchemaMismatch`: the write returns the error and the region state
is completely unchanged (no rows visible, no sequence consumed). -/
theorem C5_schema_mismatch_rejects_whole_batch
    (r : Region) (ctx : WriteContext) (b : WriteBatch) (walOk : Bool)
    (h : (batchHasUnknownColumn r.metadata b || batchHasWrongArity b ||
          batchHasNullViolation r.metadata b) = true) :
    r.write ctx b walOk = Except.error WriteError.schemaMismatch ∧
    stepOp r { ctx := ctx, batch := b, walOk := walOk } = r := by
  have hval := validateBatch_false_of_flag h
  have hw : r.write ctx b walOk = Except.error WriteError.schemaMismatch := by
    rw [Region.write, if_neg (by simp [hval])]
  exact ⟨hw, by rw [stepOp, hw]⟩

/-- Witness for C5: a batch mixing a valid row with a reference to the
unknown column `bad` is rejected by the fresh test region with
`SchemaMismatch` and leaves it untouched. -/
theorem C5_schema_mismatch_rejects_whole_batch_witness :
    new_region_for_rw.write ⟨⟩
        { mutations := [Mutation.put
            [("timestamp", [some 0]), ("v1", [some 7]), ("bad", [some 1])]] } true =
      Except.error WriteError.schemaMismatch ∧
    stepOp new_region_for_rw
        { ctx := ⟨⟩
          batch := { mutations := [Mutation.put
            [("timestamp", [some 0]), ("v1", [some 7]), ("bad", [some 1])]] }
          walOk := true } = new_region_for_rw :=
  C5_schema_mismatch_rejects_whole_batch new_region_for_rw ⟨⟩
    { mutations := [Mutation.put
        [("timestamp", [some 0]), ("v1", [some 7]), ("bad", [some 1])]] } true
    (by decide)

/-- Any single-row put of `test_sequence_increase`'s shape validates
against the test region's metadata. -/
theorem validate_putBatch (data : List (Int × Option Int)) :
    validateBatch testMetadata (putBatch data) = true := by
  simp [validateBatch, putBatch, new_put_data, validatePut, PutData.rowCount,
    testMetadata, TIMESTAMP_NAME, ColumnRole.isKey, List.all_map, Function.comp]
  exact fun x a b _ hx => hx ▸ rfl

/-- A put batch affects exactly its rows. -/
theorem batchRows_putBatch (data : List (Int × Option Int)) :
    batchRows (putBatch data) = data.length := by
  simp [batchRows, putBatch, new_put_data, PutData.rowCount]

/-- A put batch on a region with the test metadata always succeeds,
advancing the sequence by one and appending the batch's entries. -/
theorem write_putBatch_ok (r : Region) (hmd : r.metadata = testMetadata)
    (data : List (Int × Option Int)) :
    r.write ⟨⟩ (putBatch data) true =
      Except.ok
        ({ r with
            memtable := r.memtable ++
              batchEntries r.metadata (putBatch data) (r.committed_sequence + 1)
            committed_sequence := r.committed_sequence + 1 },
         { rows_affected := data.length }) := by
  rw [Region.write, if_pos (by rw [hmd]; exact validate_putBatch data), if_pos rfl,
    batchRows_putBatch]

/-- Unfolding one iteration of `test_sequence_increase`'s loop. -/
theorem seqTestPuts_succ (n : Nat) :
    seqTestPuts (n + 1) =
      seqTestPuts n >>= fun r => (Tester.put r [(Int.ofNat n, some 1234)]).map Prod.fst := by
  unfold seqTestPuts
  rw [List.range_succ, List.foldlM_append]
  simp [List.foldlM]

/-- After `n` iterations of the loop the region is intact and its
committed sequence is exactly `n`. -/
theorem seqTestPuts_ok (n : Nat) :
    ∃ r : Region, seqTestPuts n = Except.ok r ∧ r.metadata = testMetadata ∧
      r.committed_sequence = n := by
  induction n with
  | zero => exact ⟨new_region_for_rw, rfl, rfl, rfl⟩
  | succ k ih =>
    obtain ⟨r, hr, hmd, hcs⟩ := ih
    refine ⟨{ r with
        memtable := r.memtable ++
          batchEntries r.metadata (putBatch [((k : Int), some 1234)])
            (r.committed_sequence + 1)
        committed_sequence := r.committed_sequence + 1 }, ?_, by simpa using hmd,
      by simpa using congrArg Nat.succ hcs⟩
    rw [seqTestPuts_succ, hr]
    have hbind : ∀ (f : Region → Except WriteError Region) (x : Region),
        (Except.ok x : Except WriteError Region) >>= f = f x := fun _ _ => rfl
    rw [hbind]
    rw [Tester.put, write_putBatch_ok r hmd]
    rfl

/-- C1: starting from the fresh test region, each of the sequential
single-row put batches of `test_sequence_increase` succeeds and advances
`committed_sequence` by exactly 1, so after 100 such batches
`committed_sequence` is exactly 100 (per-batch sequence granularity). -/
theorem C1_sequence_increase :
    (∀ k : Nat, ∃ r r2 : Region,
        seqTestPuts k = Except.ok r ∧ seqTestPuts (k + 1) = Except.ok r2 ∧
        r.committedSequence = k ∧
        r2.committedSequence = r.committedSequence + 1) ∧
    (∃ r : Region, seqTestPuts 100 = Except.ok r ∧ r.committedSequence = 100) := by
  constructor
  · intro k
    obtain ⟨r, hr, _, hcs⟩ := seqTestPuts_ok k
    obtain ⟨r2, hr2, _, hcs2⟩ := seqTestPuts_ok (k + 1)
    exact ⟨r, r2, hr, hr2, hcs, by rw [Region.committedSequence, Region.committedSequence,
      hcs2, hcs]⟩
  · obtain ⟨r, hr, _, hcs⟩ := seqTestPuts_ok 100
    exact ⟨r, hr, hcs⟩

/-- C9: `ToUnixtimeFuntion` is registered but unevaluable: `eval` never
produces a result for any context and input columns (its body is
`todo!()`, which panics), while `name` always returns `"to_unixtime"` and
`return_type` returns the timestamp-millisecond type for every input type
list. -/
theorem C9_to_unixtime_registered_but_unevaluable :
    (∀ (func_ctx : FunctionContext) (columns : List VectorRef),
        ToUnixtimeFuntion.eval func_ctx columns = none) ∧
    ToUnixtimeFuntion.name = "to_unixtime" ∧
    (∀ input_types : List ConcreteDataType,
        ToUnixtimeFuntion.return_type input_types =
          Except.ok ConcreteDataType.timestampMillisecond) :=
  ⟨fun _ _ => rfl, rfl, fun _ => rfl⟩

/-- C8: for every snapshot scan on a region, the schema reported by the
returned chunk reader equals the schema of the region's
`in_memory_metadata()`. -/
theorem C8_scan_reader_schema (r : Region) (rctx : ReadContext) (req : ScanRequest) :
    ((r.snapshot rctx).scan rctx req).schema = r.in_memory_metadata.schema :=
  rfl

/-- C6: every snapshot scan's reader is a finite, forward-only producer:
there is a number of `next_chunk` calls after which the reader is
exhausted (the next call returns `none`), and by then the emitted chunks
carry exactly the rows visible to the snapshot. -/
theorem C6_scan_reader_finite (r : Region) (rctx : ReadContext) (req : ScanRequest) :
    ∃ n : Nat,
      ((runReader n ((r.snapshot rctx).scan rctx req)).2.next_chunk).1 = none ∧
      (((runReader n ((r.snapshot rctx).scan rctx req)).1.map Chunk.rows).flatten
        = scanRows r.memtable r.committed_sequence) := by
  refine ⟨((r.snapshot rctx).scan rctx req).chunks.length, ?_⟩
  have hscan : (r.snapshot rctx).scan rctx req =
      { schema := r.metadata.schema
        chunks :=
          if (scanRows r.memtable r.committed_sequence).isEmpty then []
          else [{ rows := scanRows r.memtable r.committed_sequence }] } := rfl
  rw [hscan]
  by_cases h : (scanRows r.memtable r.committed_sequence).isEmpty
  · rw [if_pos h]
    refine ⟨rfl, ?_⟩
    simp [runReader, List.isEmpty_iff.mp h]
  · rw [if_neg h]
    constructor
    · simp [runReader, ChunkReader.next_chunk]
    · simp [runReader, ChunkReader.next_chunk]

/-- C10: if the SQL input parses to a number of statements different from
one, the frontend's `do_query` answers `NotSupported` with the fixed
feature message and dispatches nothing to the datanode; a single statement
other than Query/Insert/Create is likewise answered `NotSupported` (with
the query text) without dispatch. -/
theorem C10_do_query_not_supported
    (query : String)
    (full_name : Except FrontendError (String × String × String))
    (column_defs : Except FrontendError (List GrpcColumnDef)) :
    (∀ stmts : List Statement, stmts.length ≠ 1 →
      do_query query (Except.ok stmts) full_name column_defs =
        QueryAction.notSupported "Only one SQL is allowed to be executed at one time." ∧
      (do_query query (Except.ok stmts) full_name column_defs).dispatched = false) ∧
    (∀ tag : String,
      do_query query (Except.ok [Statement.otherStatement tag]) full_name column_defs =
        QueryAction.notSupported query ∧
      (do_query query (Except.ok [Statement.otherStatement tag]) full_name
          column_defs).dispatched = false) := by
  constructor
  · intro stmts h
    match stmts with
    | [] => exact ⟨rfl, rfl⟩
    | [_] => exact absurd rfl h
    | _ :: _ :: _ => exact ⟨rfl, rfl⟩
  · intro tag
    exact ⟨rfl, rfl⟩

/-- Witness for C10 at the two-statement input
`"select 1; select 2"`. -/
theorem C10_do_query_not_supported_witness :
    do_query "select 1; select 2"
        (Except.ok [Statement.query "select 1", Statement.query "select 2"])
        (Except.error FrontendError.parseSql) (Except.ok []) =
      QueryAction.notSupported "Only one SQL is allowed to be executed at one time." ∧
    (do_query "select 1; select 2"
        (Except.ok [Statement.query "select 1", Statement.query "select 2"])
        (Except.error FrontendError.parseSql) (Except.ok [])).dispatched = false :=
  (C10_do_query_not_supported "select 1; select 2"
    (Except.error FrontendError.parseSql) (Except.ok [])).1
    [Statement.query "select 1", Statement.query "select 2"] (by decide)

/-- C7: given that the external name translation and column conversion
succeed, `create_to_expr` fails with `InvalidSql` unless the statement's
constraints designate exactly one time-index column, and succeeds with
that column as the `time_index` of the produced expression when exactly
one is given. -/
theorem C7_create_to_expr_time_index
    (create : CreateTable)
    (full_name : Except FrontendError (String × String × String))
    (column_defs : Except FrontendError (List GrpcColumnDef))
    (c s t : String) (defs : List GrpcColumnDef)
    (hfn : full_name = Except.ok (c, s, t))
    (hcd : column_defs = Except.ok defs) :
    ((timeIndexColumns create.constraints).length ≠ 1 →
      create_to_expr full_name column_defs create =
        Except.error (FrontendError.invalidSql
          "must have one and only one TimeIndex columns")) ∧
    (∀ col : String, timeIndexColumns create.constraints = [col] →
      ∃ expr : CreateExpr,
        create_to_expr full_name column_defs create = Except.ok expr ∧
        expr.time_index = col) := by
  subst hfn hcd
  constructor
  · intro h
    simp [create_to_expr, find_time_index, h]
  · intro col h
    have hti : find_time_index create.constraints = Except.ok col := by
      simp [find_time_index, h]
    refine
      ⟨{ catalog_name := c
         schema_name := s
         table_name := t
         column_defs := defs
         time_index := col
         primary_keys :=
           ((create.constraints.map fun constraint =>
             match constraint with
             | TableConstraint.unique _ columns true => columns
             | _ => []).flatten)
         create_if_not_exists := create.if_not_exists
         table_options := [("engine", create.engine)] }, ?_, rfl⟩
    simp [create_to_expr, hti, find_primary_keys]

/-- The entries of a `Tester::put` batch at sequence `s`: one entry per
row, in row order, keyed by the timestamp and carrying the single `v1`
cell. -/
theorem putEntries_new_put_data (data : List (Int × Option Int)) (s : Nat) :
    putEntries testMetadata (new_put_data data) s =
      data.map fun kv => { key := kv.1, seq := s, tombstone := false, values := [kv.2] } := by
  have hrow : (new_put_data data).rowCount = data.length := by
    simp [new_put_data, PutData.rowCount]
  have hts : ((new_put_data data).column testMetadata.timeIndexName).getD [] =
      data.map fun kv => some kv.1 := rfl
  have hv1 : ((new_put_data data).column "v1").getD [] = data.map Prod.snd := rfl
  unfold putEntries
  rw [hrow]
  apply List.ext_getElem
  · simp
  · intro i h1 h2
    have hi : i < data.length := by simpa using h2
    have hgd1 : (data.map fun kv => some kv.1).getD i none = some data[i].1 := by
      rw [List.getD_eq_getElem _ _ (by simpa using hi)]
      simp
    have hgd2 : (data.map Prod.snd).getD i none = data[i].2 := by
      rw [List.getD_eq_getElem _ _ (by simpa using hi)]
      simp
    have hvc : testMetadata.valueColumns =
        [{ name := "v1", nullable := true, role := ColumnRole.value }] := rfl
    simp only [List.getElem_map, List.getElem_range, hts, hv1, hvc, List.map_cons,
      List.map_nil, hgd1, hgd2, Option.getD_some]

/-- The entries of a whole `Tester::put` write batch. -/
theorem batchEntries_putBatch (data : List (Int × Option Int)) (s : Nat) :
    batchEntries testMetadata (putBatch data) s =
      data.map fun kv => { key := kv.1, seq := s, tombstone := false, values := [kv.2] } := by
  simp [batchEntries, putBatch, putEntries_new_put_data]

/-- Collapsing runs of equal keys is the identity when no two consecutive
keys coincide. -/
theorem collapseNewest_eq_self :
    ∀ (l : List Entry), List.Chain' (fun a b => a.key ≠ b.key) l → collapseNewest l = l
  | [], _ => rfl
  | [_], _ => rfl
  | a :: b :: t, h => by
    have hab : a.key ≠ b.key := (List.chain'_cons.mp h).1
    rw [collapseNewest, if_neg hab,
      collapseNewest_eq_self (b :: t) (List.chain'_cons.mp h).2]

/-- Embeds `Tester::full_scan` returns exactly the rows of a scan of the region's
current state. -/
theorem full_scan_eq (r : Region) :
    Tester.full_scan r = scanRows r.memtable r.committed_sequence := by
  unfold Tester.full_scan
  by_cases h : (scanRows r.memtable r.committed_sequence).isEmpty
  · simp [Snapshot.scan, Region.snapshot, runReader, h, List.isEmpty_iff.mp h]
  · simp [Snapshot.scan, Region.snapshot, runReader, h, ChunkReader.next_chunk]

/-- Scanning rows of a single batch with pairwise distinct keys: the
output is a permutation of the batch and its keys are strictly
ascending. -/
theorem scanRows_perm_sorted (data : List (Int × Option Int)) (s : Nat)
    (hd : data.Pairwise (fun a b => a.1 ≠ b.1)) :
    (scanRows (data.map fun kv =>
        ({ key := kv.1, seq := s, tombstone := false, values := [kv.2] } : Entry)) s).Perm
      (data.map fun kv => (kv.1, [kv.2])) ∧
    (scanRows (data.map fun kv =>
        ({ key := kv.1, seq := s, tombstone := false, values := [kv.2] } : Entry)) s).Pairwise
      (fun p q => p.1 < q.1) := by
  set entries := data.map fun kv =>
    ({ key := kv.1, seq := s, tombstone := false, values := [kv.2] } : Entry) with hentries
  have hvis : visibleEntries entries s = entries := by
    unfold visibleEntries
    rw [List.filter_eq_self]
    intro e he
    simp only [hentries, List.mem_map] at he
    obtain ⟨kv, _, rfl⟩ := he
    simp
  set l2 := List.insertionSort entryLe entries with hl2
  have hperm : l2.Perm entries := List.perm_insertionSort entryLe entries
  have hsorted : l2.Pairwise entryLe := List.sorted_insertionSort entryLe entries
  have hkeysne : entries.Pairwise (fun a b => a.key ≠ b.key) := by
    rw [hentries, List.pairwise_map]
    exact hd
  have hkeysne2 : l2.Pairwise (fun a b => a.key ≠ b.key) :=
    (hperm.pairwise_iff fun h => h.symm).mpr hkeysne
  have hlt : l2.Pairwise (fun a b => a.key < b.key) := by
    refine (hsorted.and hkeysne2).imp ?_
    intro a b h
    rcases h with ⟨hlt2 | ⟨heq, _⟩, hne⟩
    · exact hlt2
    · exact absurd heq hne
  have hcoll : collapseNewest l2 = l2 := collapseNewest_eq_self l2 hkeysne2.chain'
  have htomb : l2.filter (fun e => !e.tombstone) = l2 := by
    rw [List.filter_eq_self]
    intro e he
    have hmem : e ∈ entries := hperm.mem_iff.mp he
    simp only [hentries, List.mem_map] at hmem
    obtain ⟨kv, _, rfl⟩ := hmem
    rfl
  have hscan : scanRows entries s = l2.map fun e => (e.key, e.values) := by
    unfold scanRows
    rw [hvis, ← hl2, hcoll, htomb]
  constructor
  · rw [hscan]
    have hmaps : entries.map (fun e => (e.key, e.values)) =
        data.map fun kv => (kv.1, [kv.2]) := by
      rw [hentries, List.map_map]
      rfl
    exact hmaps ▸ hperm.map fun e => (e.key, e.values)
  · rw [hscan]
    exact List.pairwise_map.mpr hlt

/-- C2: a successful put of rows with pairwise distinct timestamps
(nullable `v1` values included) on the fresh test region reports all rows
affected, and a full scan through a snapshot captured afterwards returns
exactly those rows — the output is a permutation of the written rows with
values (and nulls) preserved — in strictly ascending timestamp order. -/
theorem C2_put_then_full_scan (data : List (Int × Option Int))
    (hdistinct : (data.map Prod.fst).Pairwise (fun a b => a ≠ b)) :
    ∃ (r1 : Region) (resp : WriteResponse),
      Tester.put new_region_for_rw data = Except.ok (r1, resp) ∧
      resp.rows_affected = data.length ∧
      (Tester.full_scan r1).Perm (data.map fun kv => (kv.1, [kv.2])) ∧
      (Tester.full_scan r1).Pairwise (fun p q => p.1 < q.1) := by
  have hw := write_putBatch_ok new_region_for_rw rfl data
  refine ⟨_, _, hw, rfl, ?_⟩
  have hd : data.Pairwise (fun a b => a.1 ≠ b.1) := List.pairwise_map.mp hdistinct
  obtain ⟨hperm, hsorted⟩ := scanRows_perm_sorted data 1 hd
  have hfs : Tester.full_scan
      ({ new_region_for_rw with
          memtable := new_region_for_rw.memtable ++
            batchEntries new_region_for_rw.metadata (putBatch data)
              (new_region_for_rw.committed_sequence + 1)
          committed_sequence := new_region_for_rw.committed_sequence + 1 }) =
      scanRows (data.map fun kv =>
        ({ key := kv.1, seq := 1, tombstone := false, values := [kv.2] } : Entry)) 1 := by
    rw [full_scan_eq]
    show scanRows ([] ++ batchEntries testMetadata (putBatch data) 1) 1 = _
    rw [List.nil_append, batchEntries_putBatch]
  exact ⟨hfs ▸ hperm, hfs ▸ hsorted⟩

/-- Witness for C2 at the data of `test_simple_put_scan` (read_write.rs
lines 135-151), null value included. -/
theorem C2_put_then_full_scan_witness :
    ∃ (r1 : Region) (resp : WriteResponse),
      Tester.put new_region_for_rw
          [(1000, some 100), (1001, some 101), (1002, none),
           (1003, some 103), (1004, some 104)] = Except.ok (r1, resp) ∧
      resp.rows_affected =
        [(1000, some 100), (1001, some 101), ((1002 : Int), (none : Option Int)),
         (1003, some 103), (1004, some 104)].length ∧
      (Tester.full_scan r1).Perm
        ([(1000, some 100), (1001, some 101), ((1002 : Int), (none : Option Int)),
          (1003, some 103), (1004, some 104)].map fun kv => (kv.1, [kv.2])) ∧
      (Tester.full_scan r1).Pairwise (fun p q => p.1 < q.1) :=
  C2_put_then_full_scan
    [(1000, some 100), (1001, some 101), (1002, none), (1003, some 103), (1004, some 104)]
    (by decide)

/-- Witness for C7 at a create statement carrying the constraints of the
source test's `CREATE TABLE demo (... TIME INDEX (ts), PRIMARY KEY(ts,
host))`. -/
theorem C7_create_to_expr_time_index_witness :
    ∃ expr : CreateExpr,
      create_to_expr (Except.ok ("greptime", "public", "demo")) (Except.ok [])
        { name := "demo"
          columns := []
          constraints :=
            [ TableConstraint.unique (some TIME_INDEX) ["ts"] false,
              TableConstraint.unique none ["ts", "host"] true ]
          if_not_exists := false
          engine := "mito" } = Except.ok expr ∧
      expr.time_index = "ts" :=
  (C7_create_to_expr_time_index
    { name := "demo"
      columns := []
      constraints :=
        [ TableConstraint.unique (some TIME_INDEX) ["ts"] false,
          TableConstraint.unique none ["ts", "host"] true ]
      if_not_exists := false
      engine := "mito" }
    (Except.ok ("greptime", "public", "demo")) (Except.ok [])
    "greptime" "public" "demo" [] rfl rfl).2 "ts" (by decide)

end Greptime
